import Mathlib

/-!
Shallow embedding of the llm-router decision-engine subsystem.

Sources embedded here:
* `src/types.ts` — the data model (`ModelConfig`, `RoutingContext`,
  `RoutingDecision`, `UserPreferences`).
* `src/models.ts` — the static model catalog `MODELS` and `getModel`.
* `src/engines/default.ts` — the heuristic classifier (`DefaultEngine`):
  regex pattern predicates, `calculateComplexity`, `isCodeQuery`,
  `isHeartbeat`, `isSimpleQuery`, `buildFallbackChain`, `decide`,
  `getConfidence`.
* `src/engines/llm-classifier.ts` — the two-stage classifier
  (`LLMClassifierEngine`): `ClassificationCache` (get/set),
  response validation, `mapClassificationToModel`, `buildFallbackChain`,
  `decide`, `getConfidence`.
* `src/engines/index.ts` — the engine registry: `registerEngine`,
  `registerFactory`, `getEngine`, `autoRoute`.

Modelling conventions: JavaScript numbers are embedded as exact rationals
(`ℚ`); timestamps (`Date.now()`) as integers (`ℤ`); JS `Map` as an
insertion-ordered association list; the single awaited network call of the
two-stage classifier as an explicit parameter carrying either the parsed
response record or a failure. Regular-expression tests are embedded as
executable character-list scanners implementing exactly the word-boundary
semantics of the concrete patterns in the source.
-/

/- Core marks the `Rat` field operations `@[irreducible]`, which blocks
`decide` from evaluating ground rational arithmetic; restore the ordinary
reducibility so concrete runs of the embedded engines can be checked by
evaluation. -/
set_option allowUnsafeReducibility true
attribute [semireducible] Rat.add Rat.mul Rat.sub Rat.inv

/- Concrete runs of the embedded engines reduce through a few thousand
nested steps (regex scans over prompt text, the catalog sort). -/
set_option maxRecDepth 8000

/-! ### Data model (src/types.ts) -/

/-- `Provider` union type from `types.ts`. -/
inductive Provider where
  | anthropic | openai | ollama | google | local
deriving DecidableEq

/-- `ModelConfig` from `types.ts`. -/
structure ModelConfig where
  provider : Provider
  model : String
  costPer1kTokens : ℚ
  maxTokens : ℕ
  contextWindow : ℕ
  strengths : List String
deriving DecidableEq

/-- `UserPreferences` from `types.ts` (the decision engines read only
`preferredProvider`; the remaining optional fields are carried for
fidelity). -/
structure UserPreferences where
  preferredProvider : Option Provider := none
  maxCost : Option ℚ := none
  minQuality : Option String := none
  allowFallback : Option Bool := none
deriving DecidableEq

/-- `RoutingContext` from `types.ts` (metadata is opaque to the engines and
omitted). -/
structure RoutingContext where
  prompt : String
  conversationHistory : Option (List String) := none
  requestedModel : Option String := none
  requestedProvider : Option Provider := none
  userPreferences : Option UserPreferences := none
deriving DecidableEq

/-- `RoutingDecision` from `types.ts`. -/
structure RoutingDecision where
  config : ModelConfig
  confidence : ℚ
  reasoning : String
  estimatedCost : ℚ
  fallbackChain : List ModelConfig
deriving DecidableEq

/-! ### Regex machinery

Executable embeddings of the concrete regular expressions used by the
heuristic classifier.  JS `\w` is exactly `[A-Za-z0-9_]`; `\b` holds
between a word char and a non-word char (or string edge). -/

/-- JS `\w` character class. -/
def isWordChar (c : Char) : Bool :=
  (c.isAlpha || c.isDigit) || c == Char.ofNat 95

/-- Case-insensitive character comparison (for `/i` patterns; the tokens
involved are ASCII). -/
def charCI (a b : Char) : Bool := a.toLower == b.toLower

/-- Case-sensitive character comparison. -/
def charCS (a b : Char) : Bool := a == b

/-- Try to match `tok` at the head of `l` under comparison `eq`; on success
return the remainder of `l`. -/
def takesAt (eq : Char → Char → Bool) : List Char → List Char → Option (List Char)
  | [], l => some l
  | _ :: _, [] => none
  | a :: as, b :: bs => if eq a b then takesAt eq as bs else none

/-- After a token ending in a word char, `\b` requires end-of-string or a
non-word char. -/
def restOkay : List Char → Bool
  | [] => true
  | c :: _ => !isWordChar c

/-- Does `tok` (starting and ending in word chars) match at the current
position with a trailing word boundary? -/
def hereMatch (eq : Char → Char → Bool) (tok l : List Char) : Bool :=
  match takesAt eq tok l with
  | some rest => restOkay rest
  | none => false

/-- Scan for `\btok\b` in the text; `prevW` records whether the previous
character was a word char (giving the leading boundary). -/
def hasTokenAux (eq : Char → Char → Bool) (tok : List Char) : List Char → Bool → Bool
  | [], prevW => !prevW && hereMatch eq tok []
  | c :: t, prevW => (!prevW && hereMatch eq tok (c :: t)) || hasTokenAux eq tok t (isWordChar c)

/-- `\btok\b` match over a string, case-insensitive. -/
def hasWordTokenCI (tok s : String) : Bool := hasTokenAux charCI tok.data s.data false

/-- `\btok\b` match over a string, case-sensitive. -/
def hasWordTokenCS (tok s : String) : Bool := hasTokenAux charCS tok.data s.data false

/-- Plain substring search (for the `\?{2,}` alternative, which carries no
word boundary). -/
def hasSubAux (pat : List Char) : List Char → Bool
  | [] => (takesAt charCS pat []).isSome
  | c :: t => (takesAt charCS pat (c :: t)).isSome || hasSubAux pat t

/-- Substring containment over strings. -/
def strContains (s pat : String) : Bool := hasSubAux pat.data s.data

/-- The `=>` alternative of the code pattern: `\b=>\b` matches only between
two word characters (both `=` and `>` are non-word, so each `\b` needs a
word char on the outer side). -/
def hasArrowToken (s : String) : Bool := go s.data false where
  go : List Char → Bool → Bool
    | [], _ => false
    | c :: t, prevW =>
      (prevW && (match c, t with
        | c1, c2 :: c3 :: _ => c1 == Char.ofNat 61 && c2 == Char.ofNat 62 && isWordChar c3
        | _, _ => false))
      || go t (isWordChar c)

/-- The backtick character, referenced by code point. -/
def backquote : Char := Char.ofNat 96

/-- Find a literal triple-backtick; on success return the remaining text
after it (the regexes scan left to right). -/
def findTriple : List Char → Option (List Char)
  | c1 :: c2 :: c3 :: rest =>
    if c1 == backquote && c2 == backquote && c3 == backquote then some rest
    else findTriple (c2 :: c3 :: rest)
  | _ => none

/-- Non-overlapping count of triple-backticks, as `/g` matching counts
them. -/
def countTriple : List Char → ℕ
  | c1 :: c2 :: c3 :: rest =>
    if c1 == backquote && c2 == backquote && c3 == backquote then 1 + countTriple rest
    else countTriple (c2 :: c3 :: rest)
  | _ => 0

/-- `/\/\w+\.\w+/` — a slash, one or more word chars, a dot, one or more
word chars (the dot is non-word, so greedy `\w+` needs no backtracking). -/
def filePathAt (l : List Char) : Bool :=
  let w := l.takeWhile isWordChar
  let r := l.dropWhile isWordChar
  !w.isEmpty &&
    (match r with
     | c :: r2 => c == Char.ofNat 46 && !(r2.takeWhile isWordChar).isEmpty
     | [] => false)

/-- Scan the text for a file-path-like token. -/
def hasFilePath (s : String) : Bool := go s.data where
  go : List Char → Bool
    | [] => false
    | c :: t => (c == Char.ofNat 47 && filePathAt t) || go t

/-! ### PATTERNS object (src/engines/default.ts) -/

/-- `PATTERNS.heartbeat = /\bHEARTBEAT_OK\b|\bHEARTBEAT\b/i`. -/
def patHeartbeat (s : String) : Bool :=
  hasWordTokenCI "HEARTBEAT_OK" s || hasWordTokenCI "HEARTBEAT" s

/-- `PATTERNS.simple = /\b(hello|hi|hey|thanks|ok|yes|no)\b/i`. -/
def patSimple (s : String) : Bool :=
  ["hello", "hi", "hey", "thanks", "ok", "yes", "no"].any (fun t => hasWordTokenCI t s)

/-- `PATTERNS.code = /\b(import|export|const|let|var|function|class|async|await|=>)\b/`
(case-sensitive). -/
def patCode (s : String) : Bool :=
  (["import", "export", "const", "let", "var", "function", "class", "async",
    "await"].any (fun t => hasWordTokenCS t s)) || hasArrowToken s

/-- `PATTERNS.codeBlock = /```[\s\S]*?```/` — two triple-backtick fences. -/
def patCodeBlock (s : String) : Bool :=
  match findTriple s.data with
  | some rest => (findTriple rest).isSome
  | none => false

/-- `PATTERNS.git = /\b(git|npm|yarn|bun|pnpm|docker|dockerfile)\b/`
(case-sensitive). -/
def patGit (s : String) : Bool :=
  ["git", "npm", "yarn", "bun", "pnpm", "docker", "dockerfile"].any
    (fun t => hasWordTokenCS t s)

/-- `PATTERNS.filePath = /\/\w+\.\w+/`. -/
def patFilePath (s : String) : Bool := hasFilePath s

/-- `PATTERNS.business = /\b(price|cost|revenue|profit|margin|seo|marketing|funnel)\b/i`. -/
def patBusiness (s : String) : Bool :=
  ["price", "cost", "revenue", "profit", "margin", "seo", "marketing",
   "funnel"].any (fun t => hasWordTokenCI t s)

/-- `PATTERNS.reasoning = /\b(explain|why|how|compare|analyze|architecture|design)\b/i`. -/
def patReasoning (s : String) : Bool :=
  ["explain", "why", "how", "compare", "analyze", "architecture",
   "design"].any (fun t => hasWordTokenCI t s)

/-- `PATTERNS.questionComplexity = /\?{2,}|\b(what if|consider|imagine|scenario)\b/i`. -/
def patQuestionComplexity (s : String) : Bool :=
  strContains s "??" ||
  ["what if", "consider", "imagine", "scenario"].any (fun t => hasWordTokenCI t s)

/-! ### Model catalog (src/models.ts) -/

/-- Catalog entry `"gemma-2b"`. -/
def gemma2b : ModelConfig :=
  { provider := .ollama, model := "gemma:2b", costPer1kTokens := 0,
    maxTokens := 4096, contextWindow := 4096,
    strengths := ["simple", "fast", "free", "heartbeat", "classify"] }

/-- Catalog entry `"llama3-8b"`. -/
def llama3_8b : ModelConfig :=
  { provider := .ollama, model := "llama3:8b", costPer1kTokens := 0,
    maxTokens := 8192, contextWindow := 8192,
    strengths := ["coding", "reasoning", "local"] }

/-- Catalog entry `"kimi"`. -/
def kimi : ModelConfig :=
  { provider := .ollama, model := "kimi-k2.5", costPer1kTokens := 0,
    maxTokens := 32768, contextWindow := 128000,
    strengths := ["long-context", "code", "local"] }

/-- Catalog entry `"claude-haiku"`. -/
def claudeHaiku : ModelConfig :=
  { provider := .anthropic, model := "claude-3-haiku-20240307",
    costPer1kTokens := 1/4, maxTokens := 4096, contextWindow := 200000,
    strengths := ["fast", "cheap", "simple", "classification"] }

/-- Catalog entry `"claude-sonnet"`. -/
def claudeSonnet : ModelConfig :=
  { provider := .anthropic, model := "claude-3-5-sonnet-20241022",
    costPer1kTokens := 3, maxTokens := 8192, contextWindow := 200000,
    strengths := ["coding", "reasoning", "balanced"] }

/-- Catalog entry `"claude-opus"`. -/
def claudeOpus : ModelConfig :=
  { provider := .anthropic, model := "claude-3-opus-20240229",
    costPer1kTokens := 15, maxTokens := 4096, contextWindow := 200000,
    strengths := ["reasoning", "complex", "agentic"] }

/-- Catalog entry `"gpt-4o-mini"`. -/
def gpt4oMini : ModelConfig :=
  { provider := .openai, model := "gpt-4o-mini", costPer1kTokens := 3/20,
    maxTokens := 16384, contextWindow := 128000,
    strengths := ["fast", "cheap", "simple"] }

/-- Catalog entry `"gpt-4o"`. -/
def gpt4o : ModelConfig :=
  { provider := .openai, model := "gpt-4o", costPer1kTokens := 5/2,
    maxTokens := 16384, contextWindow := 128000,
    strengths := ["balanced", "coding", "vision"] }

/-- Catalog entry `"gpt-4-turbo"`. -/
def gpt4Turbo : ModelConfig :=
  { provider := .openai, model := "gpt-4-turbo-preview", costPer1kTokens := 10,
    maxTokens := 4096, contextWindow := 128000,
    strengths := ["reasoning", "complex", "coding"] }

/-- Catalog entry `"codex"`. -/
def codex : ModelConfig :=
  { provider := .openai, model := "gpt-4o-codex", costPer1kTokens := 3,
    maxTokens := 8192, contextWindow := 128000,
    strengths := ["coding", "diff", "agentic"] }

/-- Catalog entry `"gemini-flash"`. -/
def geminiFlash : ModelConfig :=
  { provider := .google, model := "gemini-2.0-flash-exp", costPer1kTokens := 3/40,
    maxTokens := 8192, contextWindow := 1000000,
    strengths := ["fast", "cheap", "long-context"] }

/-- Catalog entry `"gemini-pro"`. -/
def geminiPro : ModelConfig :=
  { provider := .google, model := "gemini-1.5-pro-latest", costPer1kTokens := 7/2,
    maxTokens := 8192, contextWindow := 2000000,
    strengths := ["reasoning", "long-context", "complex"] }

/-- The `MODELS` record from `models.ts`, in declaration order (JS object
property order for string keys is insertion order, which `Object.values`
follows). -/
def MODELS : List (String × ModelConfig) :=
  [("gemma-2b", gemma2b), ("llama3-8b", llama3_8b), ("kimi", kimi),
   ("claude-haiku", claudeHaiku), ("claude-sonnet", claudeSonnet),
   ("claude-opus", claudeOpus), ("gpt-4o-mini", gpt4oMini),
   ("gpt-4o", gpt4o), ("gpt-4-turbo", gpt4Turbo), ("codex", codex),
   ("gemini-flash", geminiFlash), ("gemini-pro", geminiPro)]

/-- `Object.values(MODELS)`. -/
def MODELSvalues : List ModelConfig := MODELS.map Prod.snd

/-- `getModel(alias)` from `models.ts`: alias lookup, else first entry whose
wire model name equals the alias. -/
def getModel (name : String) : Option ModelConfig :=
  match MODELS.lookup name with
  | some m => some m
  | none => MODELSvalues.find? (fun m => m.model == name)

/-! ### Heuristic classifier (src/engines/default.ts) -/

/-- `calculateComplexity(prompt)`: the additive score, clamped above at
100.  Exact rational arithmetic stands in for JS doubles. -/
def calculateComplexity (prompt : String) : ℚ :=
  let length := prompt.length
  let lengthScore : ℚ :=
    if length > 200 then min 15 (((length : ℚ) - 100) / 50) else 0
  let codeBlocks : ℚ := (countTriple prompt.data : ℚ) / 2
  let questions : ℚ := (prompt.data.countP (fun c => c == Char.ofNat 63) : ℚ)
  let score := lengthScore + codeBlocks * 20 + questions * 3
    + (if patReasoning prompt then 10 else 0)
    + (if patQuestionComplexity prompt then 15 else 0)
    + (if patBusiness prompt then 8 else 0)
    + (if patFilePath prompt then 12 else 0)
  min 100 score

/-- `isCodeQuery(prompt)`. -/
def isCodeQuery (prompt : String) : Bool :=
  patCode prompt || patGit prompt || patCodeBlock prompt || patFilePath prompt

/-- `isHeartbeat(prompt)`. -/
def isHeartbeat (prompt : String) : Bool := patHeartbeat prompt

/-- `isSimpleQuery(prompt)`. -/
def isSimpleQuery (prompt : String) : Bool :=
  patSimple prompt && prompt.length < 100

/-- Stable insertion preserving the relative order of equal-cost models, as
JS `Array.prototype.sort`'s stable ascending comparator does. -/
def insertByCost (m : ModelConfig) : List ModelConfig → List ModelConfig
  | [] => [m]
  | x :: xs =>
    if x.costPer1kTokens ≤ m.costPer1kTokens then x :: insertByCost m xs
    else m :: x :: xs

/-- Stable sort ascending by `costPer1kTokens`. -/
def sortByCost (l : List ModelConfig) : List ModelConfig :=
  l.foldl (fun acc x => insertByCost x acc) []

/-- `buildFallbackChain(primary)` of the default engine: up to two cheaper
same-provider models, then the two Ollama alternatives when the primary is
not itself on Ollama. -/
def buildFallbackChain (primary : ModelConfig) : List ModelConfig :=
  let sameProvider := sortByCost (MODELSvalues.filter
    (fun m => m.provider == primary.provider && m.model != primary.model))
  let fallbacks := sameProvider.take 2
  if primary.provider ≠ Provider.ollama then fallbacks ++ [llama3_8b, gemma2b]
  else fallbacks

/-- String form of a `Provider`, as interpolated into rationale text. -/
def providerName : Provider → String
  | .anthropic => "anthropic"
  | .openai => "openai"
  | .ollama => "ollama"
  | .google => "google"
  | .local => "local"

/-- Decimal form of a JS number as interpolated into template strings.  The
engines interpolate the complexity score; no claim inspects these digits,
and non-integral values (possible via half code fences) are rendered as
exact fractions rather than JS float decimals. -/
def jsNumToString (q : ℚ) : String :=
  if q.den == 1 then toString q.num
  else toString q.num ++ "/" ++ toString q.den

/-- The complexity-based selection table of `DefaultEngine.decide` (the
`if/else` ladder choosing `config` and `reasoning`).  The `||` defaults on
absent aliases never fire: every alias named there is in the catalog. -/
def selectByComplexity (prompt : String) (complexity : ℚ) : ModelConfig × String :=
  if isCodeQuery prompt then
    if complexity > 50 then
      (codex, "Code query with complexity " ++ jsNumToString complexity
        ++ " - using specialized coding model")
    else
      (claudeSonnet, "Code query with complexity " ++ jsNumToString complexity
        ++ " - using balanced coding model")
  else if complexity > 70 then
    (claudeOpus, "High complexity (" ++ jsNumToString complexity
      ++ ") - using reasoning model")
  else if complexity > 40 then
    (claudeSonnet, "Medium complexity (" ++ jsNumToString complexity
      ++ ") - using balanced model")
  else if complexity > 20 then
    (claudeHaiku, "Low complexity (" ++ jsNumToString complexity
      ++ ") - using fast cheap model")
  else
    (kimi, "Very low complexity (" ++ jsNumToString complexity
      ++ ") - using local model")

/-- The user-preference substitution step of `DefaultEngine.decide`:
`Object.values(MODELS).find(m => m.provider === preferred)`. -/
def applyUserPreference (prefs : Option UserPreferences)
    (cr : ModelConfig × String) : ModelConfig × String :=
  match prefs with
  | none => cr
  | some p =>
    match p.preferredProvider with
    | none => cr
    | some pref =>
      if cr.1.provider ≠ pref then
        match MODELSvalues.find? (fun m => m.provider == pref) with
        | some preferred =>
          (preferred, cr.2 ++ " (user preferred " ++ providerName pref ++ ")")
        | none => cr
      else cr

/-- The explicit-model override step of `DefaultEngine.decide`. -/
def applyExplicitRequest (requested : Option String)
    (cr : ModelConfig × String) : ModelConfig × String :=
  match requested with
  | none => cr
  | some rm =>
    match getModel rm with
    | some explicit => (explicit, "Explicit model request: " ++ rm)
    | none => cr

/-- `DefaultEngine.decide(context)` from `src/engines/default.ts`. -/
def defaultDecide (context : RoutingContext) : RoutingDecision :=
  if isHeartbeat context.prompt then
    { config := gemma2b, confidence := 99/100,
      reasoning := "Heartbeat pattern detected - using cheapest local model",
      estimatedCost := 0, fallbackChain := [] }
  else if isSimpleQuery context.prompt then
    { config := gemma2b, confidence := 9/10,
      reasoning := "Simple greeting/command - using local fast model",
      estimatedCost := 0, fallbackChain := [claudeHaiku] }
  else
    let complexity := calculateComplexity context.prompt
    let cr := applyExplicitRequest context.requestedModel
      (applyUserPreference context.userPreferences
        (selectByComplexity context.prompt complexity))
    { config := cr.1,
      confidence := max (1/2) (1 - complexity / 200),
      reasoning := cr.2,
      estimatedCost := cr.1.costPer1kTokens * 2,
      fallbackChain := buildFallbackChain cr.1 }

/-- `DefaultEngine.getConfidence(context)`. -/
def defaultGetConfidence (context : RoutingContext) : ℚ :=
  if isHeartbeat context.prompt then 99/100
  else if isSimpleQuery context.prompt then 9/10
  else max (1/2) (1 - calculateComplexity context.prompt / 200)

/-! ### Two-stage classifier (src/engines/llm-classifier.ts) -/

/-- The four complexity tiers. -/
inductive Tier where
  | simple | medium | complex | reasoning
deriving DecidableEq

/-- Wire form of a tier, as it appears in rationale text. -/
def tierName : Tier → String
  | .simple => "simple"
  | .medium => "medium"
  | .complex => "complex"
  | .reasoning => "reasoning"

/-- `ClassificationResult` (validated) from `llm-classifier.ts`. -/
structure ClassificationResult where
  tier : Tier
  confidence : ℚ
  reasoning : String
  indicators : List String
deriving DecidableEq

/-- The record as parsed from the model's JSON before validation: the tier
arrives as a free string and the confidence unconstrained. -/
structure RawClassification where
  tier : String
  confidence : ℚ
  reasoning : String
  indicators : List String
deriving DecidableEq

/-- The validation step of `classifyWithLLM` (lines 211–216): coerce an
unknown tier to `"medium"` and an out-of-range confidence to `0.5`. -/
def validateClassification (raw : RawClassification) : ClassificationResult :=
  { tier :=
      if raw.tier = "simple" then .simple
      else if raw.tier = "medium" then .medium
      else if raw.tier = "complex" then .complex
      else if raw.tier = "reasoning" then .reasoning
      else .medium,
    confidence :=
      if raw.confidence < 0 ∨ raw.confidence > 1 then 1/2 else raw.confidence,
    reasoning := raw.reasoning,
    indicators := raw.indicators }

/-- The `ClassificationResult` synthesized by the `catch` branch of
`classifyWithLLM` on any network / timeout / parse failure. -/
def fallbackClassification : ClassificationResult :=
  { tier := .medium, confidence := 1/2,
    reasoning := "Classification failed, using fallback",
    indicators := ["fallback"] }

/-- `classifyWithLLM`: the single awaited network call is modelled by its
observable outcome — `some raw` when a response arrived and its first
`{...}` block parsed, `none` for every failure (network error, timeout,
non-ok status, unparseable text). -/
def classifyWithLLM (outcome : Option RawClassification) : ClassificationResult :=
  match outcome with
  | some raw => validateClassification raw
  | none => fallbackClassification

/-! #### ClassificationCache -/

/-- A cache slot: the stored result plus its insertion timestamp. -/
structure CacheEntry where
  result : ClassificationResult
  timestamp : ℤ
deriving DecidableEq

/-- `ClassificationCache`: a JS `Map` is insertion-ordered, so the entries
are an association list with the oldest insertion at the head. -/
structure ClassificationCache where
  entries : List (String × CacheEntry)
  ttlMs : ℤ
deriving DecidableEq

/-- `Map.set` semantics: overwrite in place when the key exists (keeping
its position in insertion order), else append at the end. -/
def mapSet {α : Type} : List (String × α) → String → α → List (String × α)
  | [], k, v => [(k, v)]
  | (k', v') :: t, k, v =>
    if k' == k then (k, v) :: t else (k', v') :: mapSet t k v

/-- `Map.delete` semantics: remove the entry with the given key. -/
def mapDelete {α : Type} : List (String × α) → String → List (String × α)
  | [], _ => []
  | (k', v') :: t, k => if k' == k then t else (k', v') :: mapDelete t k

/-- `ClassificationCache.get(key)` at clock `now` (`Date.now()` inside the
method): a present entry older than the TTL is deleted and reported
absent; a fresh one is returned.  Returns the result together with the
updated cache. -/
def cacheGet (c : ClassificationCache) (now : ℤ) (key : String) :
    Option ClassificationResult × ClassificationCache :=
  match c.entries.lookup key with
  | none => (none, c)
  | some e =>
    if now - e.timestamp > c.ttlMs then
      (none, { c with entries := mapDelete c.entries key })
    else (some e.result, c)

/-- `ClassificationCache.set(key, result)` at clock `now`: insert, then if
the size exceeds 1000 delete the first (oldest-inserted) key.  The source
guards the delete with JS truthiness (`if (firstKey)`), so an empty-string
key at the head would suppress the eviction. -/
def cacheSet (c : ClassificationCache) (now : ℤ) (key : String)
    (result : ClassificationResult) : ClassificationCache :=
  let es := mapSet c.entries key ⟨result, now⟩
  if es.length > 1000 then
    match es.head? with
    | some (firstKey, _) =>
      if firstKey ≠ "" then { c with entries := mapDelete es firstKey }
      else { c with entries := es }
    | none => { c with entries := es }
  else { c with entries := es }

/-! #### Engine proper -/

/-- `LLMClassifierOptions` (url and model name omitted: they only address
the network call, which is modelled by its outcome). -/
structure LLMClassifierOptions where
  timeoutMs : ℤ := 5000
  enableCache : Bool := true
  cacheTtlMs : ℤ := 60000
deriving DecidableEq

/-- `DEFAULT_OPTIONS`. -/
def defaultLLMOptions : LLMClassifierOptions := {}

/-- Two's-complement wrap to a signed 32-bit integer, as `x & x` performs
in JS. -/
def toInt32 (n : ℤ) : ℤ := (n + 2 ^ 31) % 2 ^ 32 - 2 ^ 31

/-- One step of the rolling hash: `hash = (hash << 5) - hash + char`
followed by `hash = hash & hash` (the shift coerces to Int32, as does the
final `&`). -/
def hashStep (h : ℤ) (c : Char) : ℤ :=
  toInt32 (toInt32 (h * 32) - h + (c.toNat : ℤ))

/-- One hex digit, lowercase as `toString(16)` prints. -/
def hexDigit (n : ℕ) : Char :=
  if n < 10 then Char.ofNat (48 + n) else Char.ofNat (97 + (n - 10))

/-- Hex digits of a natural number, most significant first (fuel-recursive;
`n + 1` units of fuel always suffice since the argument shrinks by division
by 16). -/
def natToHexAux : ℕ → ℕ → List Char
  | 0, _ => []
  | fuel + 1, n =>
    if n < 16 then [hexDigit n]
    else natToHexAux fuel (n / 16) ++ [hexDigit (n % 16)]

/-- Hex string of a natural number. -/
def natToHex (n : ℕ) : String := String.mk (natToHexAux (n + 1) n)

/-- `n.toString(16)` for a JS 32-bit integer: lowercase hex digits of the
absolute value, `-`-prefixed when negative. -/
def intToHex (n : ℤ) : String :=
  if n < 0 then "-" ++ natToHex n.natAbs else natToHex n.natAbs

/-- `getCacheKey(prompt)`: hash of the first 200 characters. -/
def getCacheKey (prompt : String) : String :=
  intToHex ((prompt.data.take 200).foldl hashStep 0)

/-- `toFixed(2)` of a confidence value, on the exact rational (ties round
half away from zero as JS does on decimal-exact doubles). -/
def toFixed2 (q : ℚ) : String :=
  let n : ℤ := round (q * 100)
  let m := n.natAbs
  (if n < 0 then "-" else "")
    ++ toString (m / 100) ++ "."
    ++ (if m % 100 < 10 then "0" ++ toString (m % 100) else toString (m % 100))

/-- `LLMClassifierEngine.buildFallbackChain(primary)`: fixed preference
order, resolved through the catalog, primary excluded, capped at 3 (alias
`"llama3.2-3b"` resolves to nothing in the current catalog). -/
def llmBuildFallbackChain (primary : ModelConfig) : List ModelConfig :=
  ((["claude-haiku", "gpt-4o-mini", "llama3.2-3b", "gemma-2b"].filterMap getModel).filter
    (fun m => m.model ≠ primary.model)).take 3

/-- `mapClassificationToModel(classification, context, latency)`: explicit
request short-circuit, else the tier switch (each `||` default is dead:
the first alias of every branch is in the catalog). -/
def mapClassificationToModel (classification : ClassificationResult)
    (context : RoutingContext) (classificationLatencyMs : ℤ) : RoutingDecision :=
  let explicitDecision : Option RoutingDecision :=
    match context.requestedModel with
    | some rm =>
      match getModel rm with
      | some explicit =>
        some { config := explicit, confidence := 1,
               reasoning := "Explicit model request: " ++ rm
                 ++ " (classified as " ++ tierName classification.tier ++ ")",
               estimatedCost := explicit.costPer1kTokens * 2,
               fallbackChain := llmBuildFallbackChain explicit }
      | none => none
    | none => none
  match explicitDecision with
  | some d => d
  | none =>
    let selectedModel : ModelConfig :=
      match classification.tier with
      | .simple => gemma2b
      | .medium => claudeHaiku
      | .complex => claudeSonnet
      | .reasoning => claudeOpus
    let reasoning0 := "LLM classified as " ++ tierName classification.tier
      ++ " (" ++ toFixed2 classification.confidence ++ " confidence): "
      ++ classification.reasoning
      ++ " [classification: " ++ toString classificationLatencyMs ++ "ms]"
    let reasoning1 :=
      if classification.indicators.length > 0 then
        reasoning0 ++ " [indicators: "
          ++ String.intercalate ", " classification.indicators ++ "]"
      else reasoning0
    { config := selectedModel,
      confidence := classification.confidence * (9/10),
      reasoning := reasoning1,
      estimatedCost := selectedModel.costPer1kTokens * 2,
      fallbackChain := llmBuildFallbackChain selectedModel }

/-- `LLMClassifierEngine.decide(context)`.  `outcome` is the observable
result of the (at most one) network classification attempt; `tRead` and
`tWrite` are the `Date.now()` readings inside `cache.get` and `cache.set`;
`latencyMs` is the measured `Date.now() - startTime` interpolated into the
rationale.  Returns the decision and the updated cache. -/
def llmDecide (options : LLMClassifierOptions) (outcome : Option RawClassification)
    (cache : ClassificationCache) (tRead tWrite latencyMs : ℤ)
    (context : RoutingContext) : RoutingDecision × ClassificationCache :=
  let cacheKey := getCacheKey context.prompt
  let step : ClassificationResult × ClassificationCache :=
    if options.enableCache then
      match cacheGet cache tRead cacheKey with
      | (some cached, c1) => (cached, c1)
      | (none, c1) =>
        let classification := classifyWithLLM outcome
        (classification, cacheSet c1 tWrite cacheKey classification)
    else (classifyWithLLM outcome, cache)
  (mapClassificationToModel step.1 context latencyMs, step.2)

/-- `LLMClassifierEngine.getConfidence(context)`. -/
def llmGetConfidence (context : RoutingContext) : ℚ :=
  if context.prompt.length < 20 then 3/10
  else if context.prompt.length < 100 then 3/5
  else 17/20

/-! ### Engine registry (src/engines/index.ts) -/

/-- A registered classifier as the registry sees it: an optional
synchronous confidence hint and a `decide` operation that may yield no
decision.  The effectful `decide` of a concrete engine is represented by
the function giving its observable result in the ambient environment. -/
structure EngineModel where
  getConfidence : Option (RoutingContext → ℚ)
  decide : RoutingContext → Option RoutingDecision

/-- The three module-level maps of `engines/index.ts`: `engines`,
`factories` and `priorities` (all insertion-ordered JS `Map`s). -/
structure RegistryState where
  engines : List (String × EngineModel) := []
  factories : List (String × (Unit → EngineModel)) := []
  priorities : List (String × ℤ) := []

/-- The empty registry (module state before any registration). -/
def emptyRegistry : RegistryState := {}

/-- `registerEngine(name, engine, priority)`. -/
def registerEngine (reg : RegistryState) (name : String) (engine : EngineModel)
    (priority : ℤ) : RegistryState :=
  { reg with engines := mapSet reg.engines name engine,
             priorities := mapSet reg.priorities name priority }

/-- `registerFactory(name, factory, priority)`. -/
def registerFactory (reg : RegistryState) (name : String)
    (factory : Unit → EngineModel) (priority : ℤ) : RegistryState :=
  { reg with factories := mapSet reg.factories name factory,
             priorities := mapSet reg.priorities name priority }

/-- `getEngine(name)`: an instantiated engine wins; otherwise a factory is
invoked and its product cached in `engines`. -/
def getEngine (reg : RegistryState) (name : String) :
    Option EngineModel × RegistryState :=
  match reg.engines.lookup name with
  | some e => (some e, reg)
  | none =>
    match reg.factories.lookup name with
    | some f =>
      let e := f ()
      (some e, { reg with engines := mapSet reg.engines name e })
    | none => (none, reg)

/-- `priorities.get(name) || 0`. -/
def priorityOf (reg : RegistryState) (name : String) : ℤ :=
  (reg.priorities.lookup name).getD 0

/-- Stable insertion for the descending-priority sort: an element goes
after every earlier element of greater-or-equal priority, which is what a
stable JS sort with comparator `(a, b) => pb - pa` produces. -/
def insertByPriority (reg : RegistryState) (x : String × EngineModel) :
    List (String × EngineModel) → List (String × EngineModel)
  | [] => [x]
  | y :: ys =>
    if priorityOf reg y.1 ≥ priorityOf reg x.1 then y :: insertByPriority reg x ys
    else x :: y :: ys

/-- `Array.from(engines.entries()).sort((a, b) => pb - pa)`: the snapshot
`autoRoute` iterates — note it draws from `engines` only, never from
`factories`. -/
def sortEngines (reg : RegistryState) : List (String × EngineModel) :=
  reg.engines.foldl (fun acc x => insertByPriority reg x acc) []

/-- The confidence gate: an engine exposing a hint below 0.3 is skipped
(`continue`) without its `decide` running. -/
def skipsB (e : EngineModel) (ctx : RoutingContext) : Bool :=
  match e.getConfidence with
  | some cf => decide (cf ctx < 3/10)
  | none => false

/-- The scan loop of `autoRoute`: returns the names whose `decide` was
invoked, and the first non-null decision if any. -/
def autoRouteLoop (ctx : RoutingContext) :
    List (String × EngineModel) → List String × Option RoutingDecision
  | [] => ([], none)
  | (n, e) :: rest =>
    if skipsB e ctx then autoRouteLoop ctx rest
    else
      match e.decide ctx with
      | some d => ([n], some d)
      | none =>
        let r := autoRouteLoop ctx rest
        (n :: r.1, r.2)

/-- Observable outcome of one `autoRoute` call: which registered engines'
`decide` ran inside the loop, whether the unconditional module-level
`defaultEngine` fallback ran, and the decision. (`defaultDecide` is total,
so the final `throw` of the source is unreachable and the result is always
a decision.) -/
structure AutoRouteResult where
  invoked : List String
  usedFallback : Bool
  decision : RoutingDecision

/-- `autoRoute(context)` from `engines/index.ts`. -/
def autoRoute (reg : RegistryState) (ctx : RoutingContext) : AutoRouteResult :=
  let r := autoRouteLoop ctx (sortEngines reg)
  match r.2 with
  | some d => { invoked := r.1, usedFallback := false, decision := d }
  | none => { invoked := r.1, usedFallback := true, decision := defaultDecide ctx }

/-- The `defaultEngine` singleton as an `EngineModel`. -/
def defaultEngineModel : EngineModel :=
  { getConfidence := some defaultGetConfidence,
    decide := fun ctx => some (defaultDecide ctx) }

/-- The `llmClassifierEngine` singleton as an `EngineModel`: its hint is
the real synchronous `getConfidence`; its effectful `decide` is abstracted
by the function `decideF` giving its result in the ambient environment. -/
def llmEngineModel (decideF : RoutingContext → Option RoutingDecision) : EngineModel :=
  { getConfidence := some llmGetConfidence, decide := decideF }

/-- `initializeRegistry()` applied to the empty module state: the state
every `autoRoute` call sees unless callers mutate the registry.
`llmDecideF` abstracts the singleton two-stage engine's effectful decide;
`llmFactory` the `"llm"` factory's product. -/
def initRegistry (llmDecideF : RoutingContext → Option RoutingDecision)
    (llmFactory : Unit → EngineModel) : RegistryState :=
  registerFactory
    (registerFactory
      (registerEngine
        (registerEngine emptyRegistry "default" defaultEngineModel 100)
        "llm-classifier" (llmEngineModel llmDecideF) 80)
      "custom" (fun _ => defaultEngineModel) 50)
    "llm" llmFactory 80

/-- `unregisterEngine(name)` (completes the registry interface). -/
def unregisterEngine (reg : RegistryState) (name : String) : RegistryState :=
  { reg with engines := mapDelete reg.engines name,
             factories := mapDelete reg.factories name,
             priorities := mapDelete reg.priorities name }

/-- The snapshot ordering property: each engine in the list has priority
no greater than every one before it (descending-priority order, ties kept
in stable order). -/
def PrioritySorted (reg : RegistryState) (l : List (String × EngineModel)) : Prop :=
  l.Pairwise (fun a b => priorityOf reg b.1 ≤ priorityOf reg a.1)

/-! ### Concrete instances used in the verification below -/

/-- A fresh cache with the default TTL (the engine's state at
construction). -/
def emptyCache : ClassificationCache := { entries := [], ttlMs := 60000 }

/-- A cache holding one entry inserted at time 0, with a TTL of 5ms. -/
def cacheAtTtl : ClassificationCache :=
  { entries := [("k", ⟨fallbackClassification, 0⟩)], ttlMs := 5 }

/-- A context whose prompt matches no pattern and carries an explicit
resolvable model request. -/
def ctxExplicitPlain : RoutingContext :=
  { prompt := "zzzz", requestedModel := some "claude-opus" }

/-- A context with a nonzero-complexity prompt (`why` matches the
reasoning pattern, `?` adds a point) and an explicit resolvable request. -/
def ctxExplicitWhy : RoutingContext :=
  { prompt := "why?", requestedModel := some "claude-opus" }

/-- A plain context with no explicit request. -/
def ctxPlain : RoutingContext := { prompt := "zzzz" }

/-- A heartbeat prompt that also carries an explicit resolvable request and
a preferred provider. -/
def ctxHeartbeatLoaded : RoutingContext :=
  { prompt := "HEARTBEAT_OK", requestedModel := some "claude-opus",
    userPreferences := some { preferredProvider := some Provider.anthropic } }

/-- A decision recognizably produced by no embedded engine. -/
def customDecision : RoutingDecision :=
  { config := claudeOpus, confidence := 1,
    reasoning := "factory-made custom engine decision",
    estimatedCost := 0, fallbackChain := [] }

/-- An engine that always decides `customDecision`, with no hint. -/
def customEngineModel : EngineModel :=
  { getConfidence := none, decide := fun _ => some customDecision }

/-- Registry with an instantiated `"default"` engine at priority 100 and a
factory-only `"custom"` registration at priority 200 whose product would
always decide. -/
def regFactoryOnly : RegistryState :=
  registerFactory
    (registerEngine emptyRegistry "default" defaultEngineModel 100)
    "custom" (fun _ => customEngineModel) 200

/-- An engine whose confidence hint is always 0.1. -/
def gatedEngineModel : EngineModel :=
  { getConfidence := some (fun _ => 1/10), decide := fun _ => some customDecision }

/-- Registry holding the gated engine at priority 100 and the default
engine at priority 50. -/
def regGated : RegistryState :=
  registerEngine
    (registerEngine emptyRegistry "gated" gatedEngineModel 100)
    "backup" defaultEngineModel 50

/-- An engine without a hint that always decides `customDecision`
(stubbed always-deciding high-priority engine of the spec's arbitration
example). -/
def stubEngineModel : EngineModel :=
  { getConfidence := none, decide := fun _ => some customDecision }

/-- An engine that counts as consulted only if reached (its decision is
`none`, which no correct run should surface). -/
def lowEngineModel : EngineModel :=
  { getConfidence := none, decide := fun _ => some (defaultDecide ctxPlain) }

/-- Registry with the stub engine at priority 100 and a lower-priority
engine at 50. -/
def regTwoTier : RegistryState :=
  registerEngine
    (registerEngine emptyRegistry "high" stubEngineModel 100)
    "low" lowEngineModel 50

/-! ### Supporting lemmas -/

theorem mem_insertByCost {x m : ModelConfig} {l : List ModelConfig}
    (h : x ∈ insertByCost m l) : x = m ∨ x ∈ l := by
  induction l with
  | nil => simpa [insertByCost] using h
  | cons y ys ih =>
    unfold insertByCost at h
    split at h
    · rcases List.mem_cons.mp h with hy | hrec
      · exact Or.inr (hy ▸ List.mem_cons_self y ys)
      · rcases ih hrec with hm | hys
        · exact Or.inl hm
        · exact Or.inr (List.mem_cons_of_mem y hys)
    · rcases List.mem_cons.mp h with hm | htl
      · exact Or.inl hm
      · exact Or.inr htl

theorem mem_sortByCost {x : ModelConfig} {l : List ModelConfig}
    (h : x ∈ sortByCost l) : x ∈ l := by
  suffices H : ∀ (l acc : List ModelConfig),
      x ∈ l.foldl (fun acc y => insertByCost y acc) acc → x ∈ acc ∨ x ∈ l by
    rcases H l [] h with hacc | hl
    · exact absurd hacc (List.not_mem_nil x)
    · exact hl
  intro l
  induction l with
  | nil => intro acc h; exact Or.inl h
  | cons y ys ih =>
    intro acc h
    rcases ih (insertByCost y acc) h with hacc | hys
    · rcases mem_insertByCost hacc with hy | hacc2
      · exact Or.inr (hy ▸ List.mem_cons_self y ys)
      · exact Or.inl hacc2
    · exact Or.inr (List.mem_cons_of_mem y hys)

theorem not_mem_buildFallbackChain (primary : ModelConfig) :
    primary ∉ buildFallbackChain primary := by
  intro h
  unfold buildFallbackChain at h
  split at h
  · rcases List.mem_append.mp h with htake | holl
    · have hmem := mem_sortByCost (List.mem_of_mem_take htake)
      have := (List.mem_filter.mp hmem).2
      simp at this
    · rename_i hprov
      rcases List.mem_cons.mp holl with h1 | h2
      · exact hprov (by rw [h1]; rfl)
      · rcases List.mem_cons.mp h2 with h3 | h4
        · exact hprov (by rw [h3]; rfl)
        · exact absurd h4 (List.not_mem_nil primary)
  · have hmem := mem_sortByCost (List.mem_of_mem_take h)
    have := (List.mem_filter.mp hmem).2
    simp at this

theorem length_buildFallbackChain (primary : ModelConfig) :
    (buildFallbackChain primary).length ≤ 4 := by
  unfold buildFallbackChain
  have h1 := (sortByCost (MODELSvalues.filter
    (fun m => m.provider == primary.provider && m.model != primary.model))).length_take_le 2
  split
  · dsimp only
    simp only [List.length_append, List.length_cons, List.length_nil]
    omega
  · dsimp only
    omega

theorem length_llmBuildFallbackChain (primary : ModelConfig) :
    (llmBuildFallbackChain primary).length ≤ 3 := by
  unfold llmBuildFallbackChain
  exact List.length_take_le 3 _

theorem mapClassification_chain_length (cl : ClassificationResult)
    (ctx : RoutingContext) (lat : ℤ) :
    (mapClassificationToModel cl ctx lat).fallbackChain.length ≤ 3 := by
  cases hrm : ctx.requestedModel with
  | none =>
    simp only [mapClassificationToModel, hrm]
    exact length_llmBuildFallbackChain _
  | some rm =>
    cases hgm : getModel rm with
    | none =>
      simp only [mapClassificationToModel, hrm, hgm]
      exact length_llmBuildFallbackChain _
    | some m =>
      simp only [mapClassificationToModel, hrm, hgm]
      exact length_llmBuildFallbackChain _

theorem llmDecide_chain_length (options : LLMClassifierOptions)
    (outcome : Option RawClassification) (cache : ClassificationCache)
    (tRead tWrite latencyMs : ℤ) (ctx : RoutingContext) :
    ((llmDecide options outcome cache tRead tWrite latencyMs ctx).1).fallbackChain.length ≤ 3 := by
  simp only [llmDecide]
  exact mapClassification_chain_length _ _ _

theorem defaultDecide_chain_length (ctx : RoutingContext) :
    (defaultDecide ctx).fallbackChain.length ≤ 4 := by
  unfold defaultDecide
  split
  · simp
  · split
    · simp
    · exact length_buildFallbackChain _

theorem defaultDecide_cost (ctx : RoutingContext) :
    (defaultDecide ctx).estimatedCost = (defaultDecide ctx).config.costPer1kTokens * 2 := by
  unfold defaultDecide
  split
  · norm_num [gemma2b]
  · split
    · norm_num [gemma2b]
    · rfl

theorem defaultDecide_not_mem (ctx : RoutingContext) :
    (defaultDecide ctx).config ∉ (defaultDecide ctx).fallbackChain := by
  unfold defaultDecide
  split
  · simp
  · split
    · decide
    · exact not_mem_buildFallbackChain _

theorem defaultGetConfidence_ge (ctx : RoutingContext) :
    1/2 ≤ defaultGetConfidence ctx := by
  unfold defaultGetConfidence
  split
  · norm_num
  · split
    · norm_num
    · exact le_max_left _ _

theorem skipsB_defaultEngineModel (ctx : RoutingContext) :
    skipsB defaultEngineModel ctx = false := by
  simp only [skipsB, defaultEngineModel]
  exact decide_eq_false (not_lt.mpr (le_trans (by norm_num) (defaultGetConfidence_ge ctx)))

theorem mem_insertByPriority {reg : RegistryState} {x p : String × EngineModel}
    {l : List (String × EngineModel)} (h : p ∈ insertByPriority reg x l) :
    p = x ∨ p ∈ l := by
  induction l with
  | nil => simpa [insertByPriority] using h
  | cons y ys ih =>
    unfold insertByPriority at h
    split at h
    · rcases List.mem_cons.mp h with hy | hrec
      · exact Or.inr (hy ▸ List.mem_cons_self y ys)
      · rcases ih hrec with hx | hys
        · exact Or.inl hx
        · exact Or.inr (List.mem_cons_of_mem y hys)
    · rcases List.mem_cons.mp h with hx | htl
      · exact Or.inl hx
      · exact Or.inr htl

theorem mem_sortEngines {reg : RegistryState} {p : String × EngineModel}
    (h : p ∈ sortEngines reg) : p ∈ reg.engines := by
  suffices H : ∀ (l acc : List (String × EngineModel)),
      p ∈ l.foldl (fun acc x => insertByPriority reg x acc) acc → p ∈ acc ∨ p ∈ l by
    rcases H reg.engines [] h with hacc | hl
    · exact absurd hacc (List.not_mem_nil p)
    · exact hl
  intro l
  induction l with
  | nil => intro acc h; exact Or.inl h
  | cons y ys ih =>
    intro acc h
    rcases ih (insertByPriority reg y acc) h with hacc | hys
    · rcases mem_insertByPriority hacc with hy | hacc2
      · exact Or.inr (hy ▸ List.mem_cons_self y ys)
      · exact Or.inl hacc2
    · exact Or.inr (List.mem_cons_of_mem y hys)

theorem mem_autoRouteLoop_invoked {ctx : RoutingContext} {n : String} :
    ∀ {l : List (String × EngineModel)}, n ∈ (autoRouteLoop ctx l).1 →
      ∃ e, (n, e) ∈ l ∧ skipsB e ctx = false := by
  intro l
  induction l with
  | nil => intro h; simp [autoRouteLoop] at h
  | cons p t ih =>
    intro h
    obtain ⟨n0, e0⟩ := p
    unfold autoRouteLoop at h
    split at h
    · rename_i hskip
      obtain ⟨e, hmem, hs⟩ := ih h
      exact ⟨e, List.mem_cons_of_mem _ hmem, hs⟩
    · rename_i hskip
      split at h
      · rename_i d hd
        simp at h
        exact ⟨e0, by simp [h], by simpa using hskip⟩
      · rename_i hd
        rcases List.mem_cons.mp h with hn | htl
        · exact ⟨e0, by simp [hn], by simpa using hskip⟩
        · obtain ⟨e, hmem, hs⟩ := ih htl
          exact ⟨e, List.mem_cons_of_mem _ hmem, hs⟩

theorem autoRoute_invoked_eq (reg : RegistryState) (ctx : RoutingContext) :
    (autoRoute reg ctx).invoked = (autoRouteLoop ctx (sortEngines reg)).1 := by
  unfold autoRoute
  cases h : (autoRouteLoop ctx (sortEngines reg)).2 <;> simp [h]

theorem lookup_eq_none_not_mem {α : Type} {l : List (String × α)} {k : String}
    (h : l.lookup k = none) : ∀ v, (k, v) ∉ l := by
  induction l with
  | nil => intro v hv; exact absurd hv (List.not_mem_nil _)
  | cons p t ih =>
    intro v hv
    obtain ⟨k', v'⟩ := p
    unfold List.lookup at h
    split at h
    · exact Option.noConfusion h
    · rename_i hk
      rcases List.mem_cons.mp hv with heq | htl
      · have : k = k' := (Prod.mk.injEq .. ▸ heq).1
        simp [this] at hk
      · exact ih h v htl

theorem autoRouteLoop_first_win (ctx : RoutingContext) (name : String)
    (e : EngineModel) (d : RoutingDecision) (l2 : List (String × EngineModel)) :
    ∀ l1 : List (String × EngineModel),
      (∀ p ∈ l1, skipsB p.2 ctx = true ∨ p.2.decide ctx = none) →
      skipsB e ctx = false → e.decide ctx = some d →
      autoRouteLoop ctx (l1 ++ (name, e) :: l2) =
        ((l1.filter (fun p => !skipsB p.2 ctx)).map Prod.fst ++ [name], some d) := by
  intro l1
  induction l1 with
  | nil =>
    intro _ hskip hdec
    simp [autoRouteLoop, hskip, hdec]
  | cons p t ih =>
    intro hprev hskip hdec
    obtain ⟨n0, e0⟩ := p
    have hrec := ih (fun q hq => hprev q (List.mem_cons_of_mem _ hq)) hskip hdec
    cases hs0 : skipsB e0 ctx with
    | true =>
      simp only [List.cons_append, autoRouteLoop, hs0, if_true, List.append_eq]
      rw [hrec]
      simp [hs0]
    | false =>
      have hd0 : e0.decide ctx = none := by
        rcases hprev (n0, e0) (List.mem_cons_self _ _) with h | h
        · rw [hs0] at h; exact absurd h (by simp)
        · exact h
      simp only [List.cons_append, autoRouteLoop, hs0, if_false, hd0, List.append_eq]
      rw [hrec]
      simp [hs0]

theorem autoRoute_initRegistry (llmF : RoutingContext → Option RoutingDecision)
    (fac : Unit → EngineModel) (ctx : RoutingContext) :
    autoRoute (initRegistry llmF fac) ctx =
      { invoked := ["default"], usedFallback := false, decision := defaultDecide ctx } := by
  have hs : sortEngines (initRegistry llmF fac) =
      [("default", defaultEngineModel), ("llm-classifier", llmEngineModel llmF)] := rfl
  unfold autoRoute
  rw [hs]
  have hwin := autoRouteLoop_first_win ctx "default" defaultEngineModel
    (defaultDecide ctx) [("llm-classifier", llmEngineModel llmF)] []
    (by intro p hp; exact absurd hp (List.not_mem_nil p))
    (skipsB_defaultEngineModel ctx) rfl
  simp only [List.nil_append] at hwin
  rw [hwin]
  simp

theorem takesAt_isSome_append (eq : Char → Char → Bool) :
    ∀ (pat l l2 : List Char), (takesAt eq pat l).isSome →
      (takesAt eq pat (l ++ l2)).isSome := by
  intro pat
  induction pat with
  | nil => intro l l2 _; simp [takesAt]
  | cons a as ih =>
    intro l l2 h
    cases l with
    | nil => simp [takesAt] at h
    | cons b bs =>
      simp only [takesAt, List.cons_append] at h ⊢
      split at h
      · rename_i heq
        rw [if_pos heq]
        exact ih bs l2 h
      · simp at h

theorem hasSubAux_append_left {pat : List Char} :
    ∀ {l : List Char} (l2 : List Char), hasSubAux pat l = true →
      hasSubAux pat (l ++ l2) = true := by
  intro l
  induction l with
  | nil =>
    intro l2 h
    simp only [hasSubAux] at h
    cases l2 with
    | nil => simpa [hasSubAux] using h
    | cons c t =>
      simp only [List.nil_append, hasSubAux]
      have := takesAt_isSome_append charCS pat [] (c :: t) h
      simp only [List.nil_append] at this
      rw [this]
      simp
  | cons c t ih =>
    intro l2 h
    simp only [hasSubAux, Bool.or_eq_true] at h
    rcases h with h | h
    · have := takesAt_isSome_append charCS pat (c :: t) l2 h
      simp only [hasSubAux, List.cons_append, Bool.or_eq_true]
      left
      simpa [List.cons_append] using this
    · simp only [hasSubAux, List.cons_append, Bool.or_eq_true]
      right
      exact ih l2 h

theorem strContains_append_left {a : String} (b : String) {pat : String}
    (h : strContains a pat = true) : strContains (a ++ b) pat = true := by
  unfold strContains at h ⊢
  rw [String.data_append]
  exact hasSubAux_append_left b.data h

theorem mapSet_lookup_none {α : Type} {l : List (String × α)} {k : String}
    (h : l.lookup k = none) (v : α) : mapSet l k v = l ++ [(k, v)] := by
  induction l with
  | nil => rfl
  | cons p t ih =>
    obtain ⟨k', v'⟩ := p
    unfold List.lookup at h
    split at h
    · exact Option.noConfusion h
    · rename_i hk
      have hk' : (k' == k) = false := by
        cases hkk : k' == k
        · rfl
        · have he := eq_of_beq hkk
          subst he
          simp at hk
      simp [mapSet, hk', ih h]

theorem mapSet_length_lookup_some {α : Type} {l : List (String × α)} {k : String}
    {w : α} (h : l.lookup k = some w) (v : α) :
    (mapSet l k v).length = l.length := by
  induction l with
  | nil => simp [List.lookup] at h
  | cons p t ih =>
    obtain ⟨k', v'⟩ := p
    unfold List.lookup at h
    split at h
    · rename_i hk
      have he : k = k' := eq_of_beq hk
      subst he
      simp [mapSet]
    · rename_i hk
      have hk' : (k' == k) = false := by
        cases hkk : k' == k
        · rfl
        · have he := eq_of_beq hkk
          subst he
          simp at hk
      simp [mapSet, hk', ih h]

theorem natToHexAux_ne_nil (fuel n : ℕ) : natToHexAux (fuel + 1) n ≠ [] := by
  unfold natToHexAux
  split
  · simp
  · simp

theorem getCacheKey_ne_empty (p : String) : getCacheKey p ≠ "" := by
  unfold getCacheKey intToHex
  split
  · intro h
    have := congrArg String.data h
    simp [natToHex, String.data_append] at this
  · intro h
    have := congrArg String.data h
    simp only [natToHex] at this
    exact natToHexAux_ne_nil _ _ (by simpa using this)

theorem prioritySorted_insertByPriority {reg : RegistryState}
    {l : List (String × EngineModel)} (x : String × EngineModel)
    (h : PrioritySorted reg l) : PrioritySorted reg (insertByPriority reg x l) := by
  induction l with
  | nil => simp [insertByPriority, PrioritySorted]
  | cons y ys ih =>
    rcases List.pairwise_cons.mp h with ⟨hy, hys⟩
    unfold insertByPriority
    split
    · rename_i hge
      refine List.pairwise_cons.mpr ⟨?_, ih hys⟩
      intro z hz
      rcases mem_insertByPriority hz with hzx | hzy
      · exact hzx ▸ hge
      · exact hy z hzy
    · rename_i hlt
      push_neg at hlt
      refine List.pairwise_cons.mpr ⟨?_, h⟩
      intro z hz
      rcases List.mem_cons.mp hz with hzy | hzys
      · exact hzy ▸ le_of_lt hlt
      · exact le_trans (hy z hzys) (le_of_lt hlt)

theorem prioritySorted_sortEngines (reg : RegistryState) :
    PrioritySorted reg (sortEngines reg) := by
  suffices H : ∀ (l acc : List (String × EngineModel)), PrioritySorted reg acc →
      PrioritySorted reg (l.foldl (fun acc x => insertByPriority reg x acc) acc) by
    exact H reg.engines [] (by simp [PrioritySorted])
  intro l
  induction l with
  | nil => intro acc h; exact h
  | cons y ys ih =>
    intro acc h
    exact ih (insertByPriority reg y acc) (prioritySorted_insertByPriority y h)

/-! ### Claim theorems -/

/-- Claim C1, counterexample: on the context with prompt `"zzzz"` and the
explicit request `"claude-opus"`, the heuristic classifier's decision has a
fallback chain of length 4 (claude-haiku, claude-sonnet, llama3-8b,
gemma-2b) — the claimed cap of 3 fails. -/
theorem C1_counterexample :
    ¬ ((defaultDecide ctxExplicitPlain).fallbackChain.length ≤ 3) := by decide

/-- Claim C1, amended: every decision of the heuristic classifier has a
fallback chain of length at most 4 (two cheaper same-provider models plus
the two Ollama alternatives), while every decision of the two-stage
classifier's decide has a fallback chain of length at most 3. -/
theorem C1_fallback_chain_bounds :
    (∀ ctx : RoutingContext, (defaultDecide ctx).fallbackChain.length ≤ 4) ∧
    (∀ (options : LLMClassifierOptions) (outcome : Option RawClassification)
        (cache : ClassificationCache) (tRead tWrite latencyMs : ℤ)
        (ctx : RoutingContext),
      ((llmDecide options outcome cache tRead tWrite latencyMs ctx).1).fallbackChain.length ≤ 3) :=
  ⟨defaultDecide_chain_length, llmDecide_chain_length⟩

/-- Claim C2, counterexample: with prompt `"why?"` (complexity 13) and the
explicit resolvable request `"claude-opus"`, the heuristic classifier
returns the requested model with the explicit-request rationale but
confidence `max(0.5, 1 − 13/200) = 0.935`, not the claimed 1.0. -/
theorem C2_counterexample :
    (defaultDecide ctxExplicitWhy).config = claudeOpus ∧
    (defaultDecide ctxExplicitWhy).reasoning = "Explicit model request: claude-opus" ∧
    (defaultDecide ctxExplicitWhy).confidence ≠ 1 := by decide

/-- Claim C2, amended: for a context whose prompt is neither a heartbeat
nor a simple query, an explicit resolvable model request makes the
heuristic classifier choose exactly the requested model with rationale
"Explicit model request: ...", but the confidence is the complexity-based
`max(0.5, 1 − complexity/200)`, not 1.0. -/
theorem C2_explicit_request (ctx : RoutingContext) (rm : String) (m : ModelConfig)
    (hhb : isHeartbeat ctx.prompt = false) (hsq : isSimpleQuery ctx.prompt = false)
    (hrm : ctx.requestedModel = some rm) (hgm : getModel rm = some m) :
    defaultDecide ctx =
      { config := m,
        confidence := max (1/2) (1 - calculateComplexity ctx.prompt / 200),
        reasoning := "Explicit model request: " ++ rm,
        estimatedCost := m.costPer1kTokens * 2,
        fallbackChain := buildFallbackChain m } := by
  simp [defaultDecide, hhb, hsq, applyExplicitRequest, hrm, hgm]

/-- Claim C2, witness: the amended theorem applied to prompt `"zzzz"` with
requested model `"claude-opus"`. -/
theorem C2_witness :
    isHeartbeat "zzzz" = false ∧ isSimpleQuery "zzzz" = false ∧
    getModel "claude-opus" = some claudeOpus ∧
    defaultDecide ctxExplicitPlain =
      { config := claudeOpus,
        confidence := max (1/2) (1 - calculateComplexity "zzzz" / 200),
        reasoning := "Explicit model request: claude-opus",
        estimatedCost := claudeOpus.costPer1kTokens * 2,
        fallbackChain := buildFallbackChain claudeOpus } :=
  ⟨by decide, by decide, by decide,
    C2_explicit_request ctxExplicitPlain "claude-opus" claudeOpus
      (by decide) (by decide) rfl (by decide)⟩

/-- Claim C10: a heartbeat prompt short-circuits the heuristic classifier
to the fixed gemma-2b decision (confidence 0.99, cost 0, empty chain) —
the explicit-request and provider-preference steps never run. -/
theorem C10_heartbeat_override (ctx : RoutingContext)
    (h : isHeartbeat ctx.prompt = true) :
    defaultDecide ctx =
      { config := gemma2b, confidence := 99/100,
        reasoning := "Heartbeat pattern detected - using cheapest local model",
        estimatedCost := 0, fallbackChain := [] } := by
  simp [defaultDecide, h]

/-- Claim C10, witness: a heartbeat prompt carrying both an explicit
resolvable request and a preferred provider still yields the fixed
gemma-2b decision. -/
theorem C10_witness :
    isHeartbeat ctxHeartbeatLoaded.prompt = true ∧
    ctxHeartbeatLoaded.requestedModel = some "claude-opus" ∧
    getModel "claude-opus" = some claudeOpus ∧
    ctxHeartbeatLoaded.userPreferences =
      some { preferredProvider := some Provider.anthropic } ∧
    defaultDecide ctxHeartbeatLoaded =
      { config := gemma2b, confidence := 99/100,
        reasoning := "Heartbeat pattern detected - using cheapest local model",
        estimatedCost := 0, fallbackChain := [] } :=
  ⟨by decide, rfl, by decide, rfl,
    C10_heartbeat_override ctxHeartbeatLoaded (by decide)⟩

/-- Claim C4: with the initialized registry (whatever the two-stage
engine's effectful decide and the `"llm"` factory do), `autoRoute` returns
a decision whose estimated cost is the chosen model's cost-per-1000 × 2
and whose fallback chain never contains the chosen model. -/
theorem C4_autoRoute_cost_and_chain
    (llmF : RoutingContext → Option RoutingDecision) (fac : Unit → EngineModel)
    (ctx : RoutingContext) :
    (autoRoute (initRegistry llmF fac) ctx).decision.estimatedCost =
      (autoRoute (initRegistry llmF fac) ctx).decision.config.costPer1kTokens * 2 ∧
    (autoRoute (initRegistry llmF fac) ctx).decision.config ∉
      (autoRoute (initRegistry llmF fac) ctx).decision.fallbackChain := by
  rw [autoRoute_initRegistry]
  exact ⟨defaultDecide_cost ctx, defaultDecide_not_mem ctx⟩

/-- Claim C7: the snapshot `autoRoute` iterates is in descending-priority
order, and the first engine of the snapshot that passes the confidence
gate and returns a decision wins: its decision is returned without the
fallback, and the invoked `decide`s are exactly the non-skipped earlier
engines plus the winner — nothing after the winner runs. -/
theorem C7_first_match :
    (∀ reg : RegistryState, PrioritySorted reg (sortEngines reg)) ∧
    ∀ (reg : RegistryState) (ctx : RoutingContext)
      (l1 l2 : List (String × EngineModel)) (name : String) (e : EngineModel)
      (d : RoutingDecision),
      sortEngines reg = l1 ++ (name, e) :: l2 →
      (∀ p ∈ l1, skipsB p.2 ctx = true ∨ p.2.decide ctx = none) →
      skipsB e ctx = false → e.decide ctx = some d →
      (autoRoute reg ctx).decision = d ∧
      (autoRoute reg ctx).usedFallback = false ∧
      (autoRoute reg ctx).invoked =
        (l1.filter (fun p => !skipsB p.2 ctx)).map Prod.fst ++ [name] := by
  refine ⟨prioritySorted_sortEngines, ?_⟩
  intro reg ctx l1 l2 name e d hsort hprev hskip hdec
  have hwin := autoRouteLoop_first_win ctx name e d l2 l1 hprev hskip hdec
  unfold autoRoute
  rw [hsort, hwin]
  simp

/-- Claim C7, witness: two engines at priorities 100 and 50, the
priority-100 one always deciding — its decision is returned and the
priority-50 engine's decide never runs. -/
theorem C7_witness :
    sortEngines regTwoTier = [("high", stubEngineModel), ("low", lowEngineModel)] ∧
    skipsB stubEngineModel ctxPlain = false ∧
    stubEngineModel.decide ctxPlain = some customDecision ∧
    ((autoRoute regTwoTier ctxPlain).decision = customDecision ∧
      (autoRoute regTwoTier ctxPlain).usedFallback = false ∧
      (autoRoute regTwoTier ctxPlain).invoked = ["high"]) :=
  ⟨rfl, rfl, rfl,
    C7_first_match.2 regTwoTier ctxPlain [] [("low", lowEngineModel)]
      "high" stubEngineModel customDecision rfl
      (by intro p hp; exact absurd hp (List.not_mem_nil p)) rfl rfl⟩

/-- Claim C8, counterexample: a factory-only registration (`"custom"`, at
priority 200, whose product always decides) is invisible to `autoRoute`:
the loop consults only the instantiated `"default"` engine and returns its
decision, never the factory product's. -/
theorem C8_counterexample :
    (regFactoryOnly.factories.lookup "custom").isSome = true ∧
    priorityOf regFactoryOnly "custom" = 200 ∧
    priorityOf regFactoryOnly "default" = 100 ∧
    "custom" ∉ (autoRoute regFactoryOnly ctxPlain).invoked ∧
    (autoRoute regFactoryOnly ctxPlain).decision = defaultDecide ctxPlain ∧
    defaultDecide ctxPlain ≠ customDecision := by
  refine ⟨rfl, by decide, by decide, by decide, rfl, by decide⟩

/-- Claim C8, amended: `autoRoute`'s snapshot draws only from the
instantiated-engine map; a name registered solely via `registerFactory`
(no prior `getEngine` of that name) is never consulted — its `decide` is
not invoked at any priority until `getEngine` resolves the factory into an
instance. -/
theorem C8_factory_not_in_snapshot (reg : RegistryState) (ctx : RoutingContext)
    (name : String) (h : reg.engines.lookup name = none) :
    name ∉ (autoRoute reg ctx).invoked := by
  intro hmem
  rw [autoRoute_invoked_eq] at hmem
  obtain ⟨e, he, _⟩ := mem_autoRouteLoop_invoked hmem
  exact lookup_eq_none_not_mem h e (mem_sortEngines he)

/-- Claim C8, witness: the amended theorem applied to the factory-only
registration `"custom"`. -/
theorem C8_witness :
    regFactoryOnly.engines.lookup "custom" = none ∧
    "custom" ∉ (autoRoute regFactoryOnly ctxPlain).invoked :=
  ⟨rfl, C8_factory_not_in_snapshot regFactoryOnly ctxPlain "custom" rfl⟩

/-- Claim C9: a registered classifier whose confidence hint evaluates
strictly below 0.3 for a context is skipped by `autoRoute` for that
context: its `decide` is never invoked in the scan loop. -/
theorem C9_confidence_gate (reg : RegistryState) (ctx : RoutingContext)
    (name : String)
    (h : ∀ e, (name, e) ∈ reg.engines →
      ∃ cf, e.getConfidence = some cf ∧ cf ctx < 3/10) :
    name ∉ (autoRoute reg ctx).invoked := by
  intro hmem
  rw [autoRoute_invoked_eq] at hmem
  obtain ⟨e, he, hs⟩ := mem_autoRouteLoop_invoked hmem
  obtain ⟨cf, hcf, hlt⟩ := h e (mem_sortEngines he)
  simp [skipsB, hcf, hlt] at hs

/-- Claim C9, witness: an engine whose hint is constantly 0.1, registered
at top priority, is never invoked by `autoRoute`. -/
theorem C9_witness :
    (∃ cf, gatedEngineModel.getConfidence = some cf ∧ cf ctxPlain < 3/10) ∧
    "gated" ∉ (autoRoute regGated ctxPlain).invoked :=
  ⟨⟨fun _ => 1/10, rfl, by norm_num⟩,
    C9_confidence_gate regGated ctxPlain "gated" (by
      intro e he
      rcases List.mem_cons.mp he with heq | htl
      · have h2 : e = gatedEngineModel := congrArg Prod.snd heq
        subst h2
        exact ⟨fun _ => 1/10, rfl, by norm_num⟩
      · rcases List.mem_cons.mp htl with heq2 | h0
        · have hfst : ("gated" : String) = "backup" := congrArg Prod.fst heq2
          exact absurd hfst (by decide)
        · exact absurd h0 (List.not_mem_nil _))⟩

theorem hasSubAux_append_right {pat : List Char} :
    ∀ (l l2 : List Char), hasSubAux pat l2 = true →
      hasSubAux pat (l ++ l2) = true := by
  intro l
  induction l with
  | nil => intro l2 h; simpa using h
  | cons c t ih =>
    intro l2 h
    simp only [List.cons_append, hasSubAux, Bool.or_eq_true]
    exact Or.inr (ih l2 h)

theorem strContains_append_right (a : String) {b pat : String}
    (h : strContains b pat = true) : strContains (a ++ b) pat = true := by
  unfold strContains at h ⊢
  rw [String.data_append]
  exact hasSubAux_append_right a.data b.data h

/-- Claim C3, counterexample: when the classification call fails but the
context carries the explicit resolvable request `"claude-opus"`, the
two-stage classifier returns that model, not the medium-tier model, and
its rationale does not contain "fallback". -/
theorem C3_counterexample :
    (llmDecide defaultLLMOptions none emptyCache 0 0 0 ctxExplicitWhy).1.config = claudeOpus ∧
    (llmDecide defaultLLMOptions none emptyCache 0 0 0 ctxExplicitWhy).1.config ≠ claudeHaiku ∧
    strContains (llmDecide defaultLLMOptions none emptyCache 0 0 0 ctxExplicitWhy).1.reasoning
      "fallback" = false := by decide

/-- Claim C3, amended: when the classification call fails (outcome
`none`), the cache does not satisfy the read (miss, expiry, or caching
disabled), and the context carries no resolvable explicit model request,
the two-stage classifier still returns a decision — built from the
synthesized ClassificationResult (tier medium, confidence 0.5): the chosen
model is the medium-tier claude-haiku, the confidence is 0.5 × 0.9 = 0.45,
and the rationale contains "fallback". -/
theorem C3_failure_degradation (options : LLMClassifierOptions)
    (cache : ClassificationCache) (tRead tWrite latencyMs : ℤ)
    (ctx : RoutingContext)
    (hex : ctx.requestedModel.bind getModel = none)
    (hmiss : options.enableCache = true →
      (cacheGet cache tRead (getCacheKey ctx.prompt)).1 = none) :
    fallbackClassification.tier = Tier.medium ∧
    fallbackClassification.confidence = 1/2 ∧
    (llmDecide options none cache tRead tWrite latencyMs ctx).1 =
      mapClassificationToModel fallbackClassification ctx latencyMs ∧
    (llmDecide options none cache tRead tWrite latencyMs ctx).1.config = claudeHaiku ∧
    (llmDecide options none cache tRead tWrite latencyMs ctx).1.confidence = 9/20 ∧
    strContains (llmDecide options none cache tRead tWrite latencyMs ctx).1.reasoning
      "fallback" = true := by
  have hd : (llmDecide options none cache tRead tWrite latencyMs ctx).1 =
      mapClassificationToModel fallbackClassification ctx latencyMs := by
    cases hec : options.enableCache with
    | false => simp [llmDecide, hec, classifyWithLLM]
    | true =>
      have h1 := hmiss hec
      rcases hget : cacheGet cache tRead (getCacheKey ctx.prompt) with ⟨r, c2⟩
      rw [hget] at h1
      simp only at h1
      subst h1
      simp [llmDecide, hec, hget, classifyWithLLM]
  have hm : mapClassificationToModel fallbackClassification ctx latencyMs =
      { config := claudeHaiku,
        confidence := (1/2 : ℚ) * (9/10),
        reasoning := "LLM classified as medium (0.50 confidence): "
            ++ "Classification failed, using fallback"
            ++ " [classification: " ++ toString latencyMs ++ "ms]"
            ++ " [indicators: " ++ "fallback" ++ "]",
        estimatedCost := claudeHaiku.costPer1kTokens * 2,
        fallbackChain := llmBuildFallbackChain claudeHaiku } := by
    cases hrm : ctx.requestedModel with
    | none =>
      simp [mapClassificationToModel, hrm, fallbackClassification, tierName,
        toFixed2, String.intercalate]
      rfl
    | some rm =>
      rw [hrm] at hex
      simp only [Option.bind] at hex
      simp [mapClassificationToModel, hrm, hex, fallbackClassification, tierName,
        toFixed2, String.intercalate]
      rfl
  refine ⟨rfl, by norm_num [fallbackClassification], hd, ?_, ?_, ?_⟩
  · rw [hd, hm]
  · rw [hd, hm]
    norm_num
  · rw [hd, hm]
    apply strContains_append_left
    apply strContains_append_right
    decide

/-- Claim C3, witness: the amended theorem at a fresh cache, failing call
and plain context (no explicit request), with a 7ms measured latency. -/
theorem C3_witness :
    ctxPlain.requestedModel.bind getModel = none ∧
    (cacheGet emptyCache 0 (getCacheKey ctxPlain.prompt)).1 = none ∧
    ((llmDecide defaultLLMOptions none emptyCache 0 0 7 ctxPlain).1.config = claudeHaiku ∧
      (llmDecide defaultLLMOptions none emptyCache 0 0 7 ctxPlain).1.confidence = 9/20 ∧
      strContains (llmDecide defaultLLMOptions none emptyCache 0 0 7 ctxPlain).1.reasoning
        "fallback" = true) :=
  ⟨rfl, rfl,
    (C3_failure_degradation defaultLLMOptions emptyCache 0 0 7 ctxPlain rfl
      (fun _ => rfl)).2.2.2⟩

/-- Claim C5, counterexample: an entry inserted at time 0 in a cache with
TTL 5 is still returned by a read at time 5, although `now − insertedAt ≥
ttl` — the code treats an entry as expired only strictly beyond the TTL. -/
theorem C5_counterexample :
    cacheAtTtl.ttlMs = 5 ∧ (5 : ℤ) - 0 ≥ cacheAtTtl.ttlMs ∧
    cacheGet cacheAtTtl 5 "k" = (some fallbackClassification, cacheAtTtl) := by
  decide

/-- Claim C5, amended: a stored entry read at time `now` is treated as
absent and evicted exactly when `now − insertedAt > ttl` (strictly); while
`now − insertedAt ≤ ttl` the stored result is returned and the cache is
unchanged. -/
theorem C5_cache_expiry (c : ClassificationCache) (key : String)
    (e : CacheEntry) (now : ℤ) (h : c.entries.lookup key = some e) :
    (c.ttlMs < now - e.timestamp →
      cacheGet c now key = (none, { c with entries := mapDelete c.entries key })) ∧
    (now - e.timestamp ≤ c.ttlMs →
      cacheGet c now key = (some e.result, c)) := by
  constructor
  · intro hc
    simp [cacheGet, h, hc]
  · intro hc
    simp [cacheGet, h, not_lt.mpr hc]

/-- Claim C5, witness: the amended theorem at the one-entry cache, read
within the TTL (time 3 of 5). -/
theorem C5_witness :
    cacheAtTtl.entries.lookup "k" = some ⟨fallbackClassification, 0⟩ ∧
    ((cacheAtTtl.ttlMs < (3 : ℤ) - 0 →
      cacheGet cacheAtTtl 3 "k" =
        (none, { cacheAtTtl with entries := mapDelete cacheAtTtl.entries "k" })) ∧
    ((3 : ℤ) - 0 ≤ cacheAtTtl.ttlMs →
      cacheGet cacheAtTtl 3 "k" = (some fallbackClassification, cacheAtTtl))) :=
  ⟨by decide, C5_cache_expiry cacheAtTtl "k" ⟨fallbackClassification, 0⟩ 3 (by decide)⟩

/-- Claim C6: engine-produced cache keys are never the empty string, and
for every cache whose entries number at most 1000 and whose keys are such
engine-produced (nonempty) keys, a `set` keeps the size at most 1000; a
`set` of a fresh key performed at capacity evicts exactly the
oldest-inserted entry (the head of the insertion-ordered map), not a
recency-based victim. -/
theorem C6_cache_capacity :
    (∀ p : String, getCacheKey p ≠ "") ∧
    ∀ (c : ClassificationCache) (now : ℤ) (key : String)
      (r : ClassificationResult),
      c.entries.length ≤ 1000 →
      (∀ k ∈ c.entries.map Prod.fst, k ≠ "") →
      ((cacheSet c now key r).entries.length ≤ 1000 ∧
        (c.entries.length = 1000 → c.entries.lookup key = none →
          (cacheSet c now key r).entries =
            c.entries.tail ++ [(key, ⟨r, now⟩)])) := by
  refine ⟨getCacheKey_ne_empty, ?_⟩
  intro c now key r hlen hkeys
  cases hlk : c.entries.lookup key with
  | some w =>
    have hset := mapSet_length_lookup_some hlk (⟨r, now⟩ : CacheEntry)
    have hnot : ¬ (mapSet c.entries key ⟨r, now⟩).length > 1000 := by omega
    constructor
    · simp only [cacheSet]
      rw [if_neg hnot]
      simpa [hset] using hlen
    · intro _ hlk2
      simp [hlk] at hlk2
  | none =>
    have hset := mapSet_lookup_none hlk (⟨r, now⟩ : CacheEntry)
    by_cases hfull : c.entries.length = 1000
    · cases hce : c.entries with
      | nil => rw [hce] at hfull; simp at hfull
      | cons p t =>
        obtain ⟨k0, e0⟩ := p
        have hk0 : k0 ≠ "" := hkeys k0 (by simp [hce])
        have ht : t.length = 999 := by
          rw [hce] at hfull
          simpa using hfull
        have hgt : (mapSet c.entries key ⟨r, now⟩).length > 1000 := by
          rw [hset, hce]
          simp [ht]
        have hmain : (cacheSet c now key r).entries = t ++ [(key, ⟨r, now⟩)] := by
          simp only [cacheSet]
          rw [if_pos hgt, hset, hce]
          simp only [List.cons_append, List.head?_cons]
          rw [if_pos hk0]
          simp [mapDelete]
        constructor
        · rw [hmain]
          simp [ht]
        · intro _ _
          rw [hmain]
          rfl
    · have hlt : c.entries.length < 1000 := lt_of_le_of_ne hlen hfull
      have hnot : ¬ (mapSet c.entries key ⟨r, now⟩).length > 1000 := by
        rw [hset]
        simp
        omega
      constructor
      · simp only [cacheSet]
        rw [if_neg hnot, hset]
        simp
        omega
      · intro h1000 _
        exact absurd h1000 hfull

/-- Claim C6, witness: the capacity theorem applied to the empty cache. -/
theorem C6_witness :
    emptyCache.entries.length ≤ 1000 ∧
    ((cacheSet emptyCache 0 "a" fallbackClassification).entries.length ≤ 1000 ∧
      (emptyCache.entries.length = 1000 → emptyCache.entries.lookup "a" = none →
        (cacheSet emptyCache 0 "a" fallbackClassification).entries =
          emptyCache.entries.tail ++ [("a", ⟨fallbackClassification, 0⟩)])) :=
  ⟨by decide,
    C6_cache_capacity.2 emptyCache 0 "a" fallbackClassification (by decide)
      (by simp [emptyCache])⟩
